import Mathlib

/-!
Verification of the profile-driven command generation and validation engine
of the `cliconverter` repository (src/profiles.py, src/converter.py).

The embedding below is a shallow model of the Python source:

* Python `dict[str, str]` sections (the `video` / `audio` blocks of a
  profile) are association lists (`Section`), with `dict.get` modelled by
  `Section.get` / `Section.getD` and in-place update `d[k] = v` modelled by
  `Section.set` (replace the first binding, else append — matching Python
  insertion-order semantics).
* A profile is a record with its optional `container` string and optional
  `video` / `audio` sections (`"video" in profile` becomes `.video.isSome`).
* The profile collection `self.profiles` is a `FormatProfiles` record: an
  association list of categories plus the contents of the reserved
  `"schema"` key.  `self.profiles.get("schema", {})` returns `{}` both when
  the key is absent and when it is empty, so both states are modelled by
  the empty association list `[]`.
* Command construction produces the token list that the source assembles
  with successive `cmd.extend` calls (`profiles.py:generate_ffmpeg_command`
  finally joins the tokens with spaces; `converter.py:
  convert_file_with_profile` passes the list to the subprocess).
* Speed strings such as `"1.5x"` are parsed by the source with
  `float(value.replace('x', ''))`; we parse the same decimal notation into
  an exact rational (`parseSpeed`).  All schema speeds are dyadic, hence
  exactly representable by the source's floats as well.
-/

namespace CliConv

/-- Association-list lookup, modelling Python `dict.get(k)` /
`k in d` on string-keyed dictionaries. -/
def assocGet {α : Type} : List (String × α) → String → Option α
  | [], _ => none
  | (k', v) :: rest, k => if k' = k then some v else assocGet rest k

/-- Association-list update, modelling `d[k] = v`: replaces the first
binding of `k` (keeping its position, as Python dicts do) or appends a new
binding at the end. -/
def assocSet {α : Type} : List (String × α) → String → α → List (String × α)
  | [], k, v => [(k, v)]
  | (k', v') :: rest, k, v =>
      if k' = k then (k, v) :: rest else (k', v') :: assocSet rest k v

/-- A profile section (the `video` or `audio` sub-dictionary): parameter
name to string value. -/
abbrev Section : Type := List (String × String)

/-- `sec.get k` models `sec.get(k)` (`None` when absent). -/
def Section.get (s : Section) (k : String) : Option String := assocGet s k

/-- `sec.getD k d` models `sec.get(k, d)`. -/
def Section.getD (s : Section) (k d : String) : String := (Section.get s k).getD d

/-- `sec.set k v` models the in-place update `sec[k] = v`. -/
def Section.set (s : Section) (k v : String) : Section := assocSet s k v

theorem Section.get_set_self (s : Section) (k v : String) :
    Section.get (Section.set s k v) k = some v := by
  induction s with
  | nil => simp [Section.get, Section.set, assocGet, assocSet]
  | cons hd tl ih =>
      by_cases h : hd.1 = k
      · simp [Section.get, Section.set, assocGet, assocSet, h]
      · simpa [Section.get, Section.set, assocGet, assocSet, h] using ih

theorem Section.set_set_self (s : Section) (k v w : String) :
    Section.set (Section.set s k v) k w = Section.set s k w := by
  induction s with
  | nil => simp [Section.set, assocSet]
  | cons hd tl ih =>
      by_cases h : hd.1 = k
      · simp [Section.set, assocSet, h]
      · simp only [Section.set, assocSet, if_neg h]
        rw [show assocSet (assocSet tl k v) k w = assocSet tl k w from ih]

theorem Section.set_eq_of_get_eq (s : Section) (k v : String)
    (h : Section.get s k = some v) : Section.set s k v = s := by
  induction s with
  | nil => simp [Section.get, assocGet] at h
  | cons hd tl ih =>
      by_cases hk : hd.1 = k
      · subst hk
        simp [Section.get, assocGet] at h
        simp [Section.set, assocSet, ← h]
      · simp [Section.get, assocGet, hk] at h
        simp only [Section.set, assocSet, if_neg hk]
        rw [show assocSet tl k v = tl from ih h]

theorem assocGet_assocSet_self {α : Type} (l : List (String × α)) (k : String) (v : α) :
    assocGet (assocSet l k v) k = some v := by
  induction l with
  | nil => simp [assocGet, assocSet]
  | cons hd tl ih =>
      by_cases h : hd.1 = k
      · simp [assocGet, assocSet, h]
      · simpa [assocGet, assocSet, h] using ih

/-! ## Tempo-stage decomposition

`converter.py:convert_file_with_profile` and
`profiles.py:generate_ffmpeg_command` contain the identical loop: the
`atempo` primitive only accepts multipliers in `[0.5, 2.0]`, so a speed
`s > 2` is emitted as `2.0` stages (`remaining /= 2`) until the remainder
fits, and `s < 0.5` as `0.5` stages (`remaining *= 2`).  We model the
sequence of stage multipliers as exact rationals. -/

theorem ceil_half_lt {t : ℚ} (h : 2 < t) : ⌈t / 2⌉₊ < ⌈t⌉₊ := by
  have h3 : 2 < ⌈t⌉₊ := Nat.lt_ceil.mpr (by exact_mod_cast h)
  have hn : (3 : ℚ) ≤ (⌈t⌉₊ : ℚ) := by exact_mod_cast h3
  have ht : t ≤ (⌈t⌉₊ : ℚ) := Nat.le_ceil t
  have hle : ⌈t / 2⌉₊ ≤ ⌈t⌉₊ - 1 := by
    apply Nat.ceil_le.mpr
    have h1 : 1 ≤ ⌈t⌉₊ := by omega
    have hc : ((⌈t⌉₊ - 1 : ℕ) : ℚ) = (⌈t⌉₊ : ℚ) - 1 := by
      push_cast [h1]; ring
    rw [hc]; linarith
  omega

/-- The `speed > 2` loop of the source: emit `atempo=2.0` stages while the
remaining speed exceeds 2, then one final stage at the remainder. -/
def tempoStagesUp (s : ℚ) : List ℚ :=
  if h : 2 < s then 2 :: tempoStagesUp (s / 2) else [s]
termination_by ⌈s⌉₊
decreasing_by exact ceil_half_lt h

/-- The `speed < 0.5` loop of the source: emit `atempo=0.5` stages while
the remaining speed is below 1/2, then one final stage at the remainder.
The positivity conjunct in the guard is needed for termination; the source
loop (`while remaining_speed < 0.5: remaining_speed *= 2`) never leaves
non-positive values, so the two definitions agree on every speed the
program can parse (all positive). -/
def tempoStagesDown (s : ℚ) : List ℚ :=
  if h : 0 < s ∧ s < 1 / 2 then (1 / 2 : ℚ) :: tempoStagesDown (s * 2) else [s]
termination_by ⌈s⁻¹⌉₊
decreasing_by
  have hs0 : 0 < s := h.1
  have hmul : s * s⁻¹ = 1 := mul_inv_cancel₀ (ne_of_gt hs0)
  have h2 : 2 < s⁻¹ := by nlinarith [h.2]
  have heq : (s * 2)⁻¹ = s⁻¹ / 2 := by
    rw [mul_inv]; ring
  calc ⌈(s * 2)⁻¹⌉₊ = ⌈s⁻¹ / 2⌉₊ := by rw [heq]
    _ < ⌈s⁻¹⌉₊ := ceil_half_lt h2

/-- The three-way dispatch of the source (`if speed > 2 / elif speed < 0.5
/ else` single stage). -/
def tempoStages (s : ℚ) : List ℚ :=
  if 2 < s then tempoStagesUp s
  else if s < 1 / 2 then tempoStagesDown s
  else [s]

/-- One `atempo` filter chain, comma-joined in emission order
(`','.join(stages)` in the source). -/
def atempoChainExpr (s : ℚ) : String :=
  String.intercalate "," ((tempoStages s).map (fun m => "atempo=" ++ toString m))

theorem tempoStagesUp_eq_replicate :
    ∀ (k : ℕ) (s : ℚ), (2 : ℚ) ^ k < s → s ≤ 2 ^ (k + 1) →
      tempoStagesUp s = List.replicate k 2 ++ [s / 2 ^ k] := by
  intro k
  induction k with
  | zero =>
      intro s h1 h2
      rw [tempoStagesUp]
      rw [dif_neg (by push_neg; simpa using h2)]
      simp
  | succ k ih =>
      intro s h1 h2
      have hk2 : (2 : ℚ) ≤ 2 ^ (k + 1) := by
        calc (2 : ℚ) = 2 ^ 1 := by norm_num
          _ ≤ 2 ^ (k + 1) := by
            apply pow_le_pow_right (by norm_num)
            omega
      have h2s : 2 < s := lt_of_le_of_lt hk2 h1
      rw [tempoStagesUp, dif_pos h2s]
      have hlow : (2 : ℚ) ^ k < s / 2 := by
        rw [lt_div_iff (by norm_num : (0 : ℚ) < 2)]
        calc (2 : ℚ) ^ k * 2 = 2 ^ (k + 1) := by rw [pow_succ]
          _ < s := h1
      have hhigh : s / 2 ≤ 2 ^ (k + 1) := by
        rw [div_le_iff (by norm_num : (0 : ℚ) < 2)]
        calc s ≤ 2 ^ (k + 1 + 1) := h2
          _ = 2 ^ (k + 1) * 2 := by rw [pow_succ]
      rw [ih (s / 2) hlow hhigh]
      have hdiv : s / 2 / 2 ^ k = s / 2 ^ (k + 1) := by
        rw [div_div, pow_succ]; ring_nf
      rw [hdiv, List.replicate_succ, List.cons_append]

theorem tempoStagesDown_eq_replicate :
    ∀ (k : ℕ) (s : ℚ), 0 < s → 1 / 2 ^ (k + 1) ≤ s → s < 1 / 2 ^ k →
      tempoStagesDown s = List.replicate k (1 / 2) ++ [s * 2 ^ k] := by
  intro k
  induction k with
  | zero =>
      intro s hs h1 h2
      rw [tempoStagesDown]
      rw [dif_neg (by push_neg; intro; simpa using h1)]
      simp
  | succ k ih =>
      intro s hs h1 h2
      have hguard : s < 1 / 2 := by
        have : (1 : ℚ) / 2 ^ (k + 1) ≤ 1 / 2 := by
          apply div_le_div_of_nonneg_left (by norm_num) (by norm_num)
          calc (2 : ℚ) = 2 ^ 1 := by norm_num
            _ ≤ 2 ^ (k + 1) := by
              apply pow_le_pow_right (by norm_num)
              omega
        linarith
      rw [tempoStagesDown, dif_pos ⟨hs, hguard⟩]
      have hlow : 1 / 2 ^ (k + 1) ≤ s * 2 := by
        have hpow : (1 : ℚ) / 2 ^ (k + 1 + 1) = (1 / 2 ^ (k + 1)) / 2 := by
          rw [pow_succ]; ring
        rw [hpow] at h1
        linarith
      have hhigh : s * 2 < 1 / 2 ^ k := by
        have hpow : (1 : ℚ) / 2 ^ (k + 1) = (1 / 2 ^ k) / 2 := by
          rw [pow_succ]; ring
        rw [hpow] at h2
        linarith
      rw [ih (s * 2) (by linarith) hlow hhigh]
      have hmul : s * 2 * 2 ^ k = s * 2 ^ (k + 1) := by
        rw [pow_succ]; ring
      rw [hmul, List.replicate_succ, List.cons_append]

/-- Bridge from `Int.clog` (the formal reading of `ceil(log2 r)`) to the
power bounds used by the loop lemmas: for `1 < r` the value
`(Int.clog 2 r).toNat` is some `m + 1` with `2 ^ m < r ≤ 2 ^ (m + 1)`. -/
theorem clog2_bounds {r : ℚ} (hr : 1 < r) :
    ∃ m : ℕ, (Int.clog 2 r).toNat = m + 1 ∧
      (2 : ℚ) ^ m < r ∧ r ≤ 2 ^ (m + 1) := by
  have hpos : (0 : ℚ) < r := lt_trans one_pos hr
  have hb : (1 : ℕ) < 2 := one_lt_two
  have hk0 : 0 < Int.clog 2 r := by
    have h := (Int.zpow_lt_iff_lt_clog (R := ℚ) hb (x := 0) hpos).mp (by simpa using hr)
    exact h
  obtain ⟨m, hm⟩ : ∃ m : ℕ, Int.clog 2 r = (m : ℤ) + 1 := by
    refine ⟨(Int.clog 2 r).toNat - 1, ?_⟩
    omega
  refine ⟨m, by omega, ?_, ?_⟩
  · have h := Int.zpow_pred_clog_lt_self (b := 2) (r := r) hb hpos
    rw [hm, add_sub_cancel_right] at h
    rw [zpow_natCast] at h
    exact_mod_cast h
  · have h := Int.self_le_zpow_clog (b := 2) hb r
    rw [hm] at h
    have hcast : ((m : ℤ) + 1) = ((m + 1 : ℕ) : ℤ) := by push_cast; ring
    rw [hcast, zpow_natCast] at h
    exact_mod_cast h

/-- C1: for a speed multiplier `2 < s ≤ 1024` the tempo decomposition is
`k = ceil(log2(s/2))` stages of multiplier `2.0` followed by one final
stage `s / 2^k` (in that order), and the stage multipliers multiply back
to `s`; symmetrically, for `0 < t < 0.5` it is `ceil(log2(0.5/t))` stages
of `0.5` followed by one final stage `t * 2^k`, whose product is `t`.
The comma-joined filter expression (`','.join(stages)`) is
`atempoChainExpr`, which renders exactly this stage list in order. -/
theorem tempo_decomposition_clog_spec (s t : ℚ) :
    (2 < s → s ≤ 1024 →
      tempoStages s =
          List.replicate ((Int.clog 2 (s / 2)).toNat) 2 ++
            [s / 2 ^ (Int.clog 2 (s / 2)).toNat] ∧
        (tempoStages s).prod = s ∧
        atempoChainExpr s = String.intercalate ","
          ((List.replicate ((Int.clog 2 (s / 2)).toNat) 2 ++
            [s / 2 ^ (Int.clog 2 (s / 2)).toNat]).map
              (fun m => "atempo=" ++ toString m))) ∧
    (0 < t → t < 1 / 2 →
      tempoStages t =
          List.replicate ((Int.clog 2 (1 / 2 / t)).toNat) (1 / 2) ++
            [t * 2 ^ (Int.clog 2 (1 / 2 / t)).toNat] ∧
        (tempoStages t).prod = t ∧
        atempoChainExpr t = String.intercalate ","
          ((List.replicate ((Int.clog 2 (1 / 2 / t)).toNat) (1 / 2) ++
            [t * 2 ^ (Int.clog 2 (1 / 2 / t)).toNat]).map
              (fun m => "atempo=" ++ toString m))) := by
  constructor
  · intro h2 _h1024
    have hr : 1 < s / 2 := by linarith
    obtain ⟨m, hmeq, hlow, hhigh⟩ := clog2_bounds hr
    have hslow : (2 : ℚ) ^ (m + 1) < s := by
      have h := (lt_div_iff (by norm_num : (0 : ℚ) < 2)).mp hlow
      calc (2 : ℚ) ^ (m + 1) = 2 ^ m * 2 := by rw [pow_succ]
        _ < s := h
    have hshigh : s ≤ (2 : ℚ) ^ (m + 1 + 1) := by
      have h := (div_le_iff (by norm_num : (0 : ℚ) < 2)).mp hhigh
      calc s ≤ 2 ^ (m + 1) * 2 := h
        _ = 2 ^ (m + 1 + 1) := by ring
    have hdec := tempoStagesUp_eq_replicate (m + 1) s hslow hshigh
    have hts : tempoStages s = tempoStagesUp s := by
      rw [tempoStages, if_pos h2]
    rw [hts, hmeq, hdec]
    refine ⟨rfl, ?_, ?_⟩
    · simp [List.prod_replicate]
      field_simp
    · unfold atempoChainExpr
      rw [hts, hdec]
  · intro ht0 thalf
    have hr : 1 < 1 / 2 / t := by
      rw [lt_div_iff ht0]
      linarith
    obtain ⟨m, hmeq, hlow, hhigh⟩ := clog2_bounds hr
    have hp1 : (0 : ℚ) < 2 ^ (m + 1) := by positivity
    have hp2 : (0 : ℚ) < 2 ^ (m + 1 + 1) := by positivity
    have hpow1 : (2 : ℚ) ^ (m + 1) = 2 ^ m * 2 := by rw [pow_succ]
    have hpow2 : (2 : ℚ) ^ (m + 1 + 1) = 2 ^ (m + 1) * 2 := by rw [pow_succ]
    have htlow : 1 / 2 ^ (m + 1 + 1) ≤ t := by
      have h := (div_le_iff ht0).mp hhigh
      rw [div_le_iff hp2]
      nlinarith
    have hthigh : t < 1 / 2 ^ (m + 1) := by
      have h := (lt_div_iff ht0).mp hlow
      rw [lt_div_iff hp1]
      nlinarith
    have hdec := tempoStagesDown_eq_replicate (m + 1) t ht0 htlow hthigh
    have hts : tempoStages t = tempoStagesDown t := by
      rw [tempoStages, if_neg (by linarith), if_pos thalf]
    rw [hts, hmeq, hdec]
    refine ⟨rfl, ?_, ?_⟩
    · simp [List.prod_replicate]
      field_simp
    · unfold atempoChainExpr
      rw [hts, hdec]

/-- Witness for C1 at the concrete speeds `s = 3` and `t = 1/5`. -/
theorem tempo_decomposition_clog_spec_witness :
    (tempoStages 3 =
        List.replicate ((Int.clog 2 ((3 : ℚ) / 2)).toNat) 2 ++
          [(3 : ℚ) / 2 ^ (Int.clog 2 ((3 : ℚ) / 2)).toNat] ∧
      (tempoStages 3).prod = 3 ∧
      atempoChainExpr 3 = String.intercalate ","
        ((List.replicate ((Int.clog 2 ((3 : ℚ) / 2)).toNat) 2 ++
          [(3 : ℚ) / 2 ^ (Int.clog 2 ((3 : ℚ) / 2)).toNat]).map
            (fun m => "atempo=" ++ toString m))) ∧
    (tempoStages (1 / 5) =
        List.replicate ((Int.clog 2 ((1 : ℚ) / 2 / (1 / 5))).toNat) (1 / 2) ++
          [(1 / 5 : ℚ) * 2 ^ (Int.clog 2 ((1 : ℚ) / 2 / (1 / 5))).toNat] ∧
      (tempoStages (1 / 5 : ℚ)).prod = 1 / 5 ∧
      atempoChainExpr (1 / 5) = String.intercalate ","
        ((List.replicate ((Int.clog 2 ((1 : ℚ) / 2 / (1 / 5))).toNat) (1 / 2) ++
          [(1 / 5 : ℚ) * 2 ^ (Int.clog 2 ((1 : ℚ) / 2 / (1 / 5))).toNat]).map
            (fun m => "atempo=" ++ toString m))) :=
  ⟨(tempo_decomposition_clog_spec 3 (1 / 5)).1 (by norm_num) (by norm_num),
   (tempo_decomposition_clog_spec 3 (1 / 5)).2 (by norm_num) (by norm_num)⟩

/-! ## Data model: profiles, schema, profile store -/

/-- A stored profile: the `container` string and the optional `video` /
`audio` sub-dictionaries (`"video" in profile` becomes `.video.isSome`). -/
structure Profile where
  container : Option String
  video : Option Section
  audio : Option Section
deriving DecidableEq

/-- The schema registry: named option lists (`video_codecs`, `containers`,
...).  The source reads it with `self.profiles.get("schema", {})`, which
yields `{}` both when the key is absent and when it holds an empty record;
both are the empty list here. -/
abbrev Schema : Type := List (String × List String)

/-- The profile collection `self.profiles`: the ordinary categories
(`"audio"`, `"video"`) and the reserved `"schema"` key, kept apart. -/
structure FormatProfiles where
  cats : List (String × List (String × Profile))
  schema : Schema
deriving DecidableEq

/-- `schema.get(key, [])`. -/
def schemaList (schema : Schema) (key : String) : List String :=
  (assocGet schema key).getD []

/-- One per-parameter check of `_validate_profile`:
`if param_type in schema and value != "copy" and value not in
schema[param_type]: return False`. -/
def schemaAllows (schema : Schema) (key v : String) : Bool :=
  match assocGet schema key with
  | none => true
  | some opts => v == "copy" || opts.contains v

/-- `settings.get("container") not in schema.get("containers", [])`,
negated (an absent container is `None`, which is never a member). -/
def containerOk (schema : Schema) (p : Profile) : Bool :=
  match p.container with
  | some c => (schemaList schema "containers").contains c
  | none => false

/-- Key derivation for audio parameters:
`f"audio_{param}s" if param != "codec" else "audio_codecs"`. -/
def audioParamKey (p : String) : String :=
  if p = "codec" then "audio_codecs" else "audio_" ++ p ++ "s"

/-- The video-parameter loop of `_validate_profile` (skips
`speed_control`, derives the key `f"video_{param}s"`). -/
def videoParamsOk (schema : Schema) (s : Section) : Bool :=
  s.all fun pv => pv.1 == "speed_control" || schemaAllows schema ("video_" ++ pv.1 ++ "s") pv.2

/-- The audio-parameter loop in the video branch of `_validate_profile`
(skips `audio_speed`). -/
def audioParamsOkV (schema : Schema) (s : Section) : Bool :=
  s.all fun pv => pv.1 == "audio_speed" || schemaAllows schema (audioParamKey pv.1) pv.2

/-- The audio-parameter loop in the audio branch of `_validate_profile`
(no exemption for `audio_speed`). -/
def audioParamsOkA (schema : Schema) (s : Section) : Bool :=
  s.all fun pv => schemaAllows schema (audioParamKey pv.1) pv.2

/-- `FormatProfiles._validate_profile`, with the in-place mutation of
`settings["audio"]["audio_speed"]` made explicit: the result is the pair
(boolean verdict, settings object after the call).  The mutation happens
after the container and speed-control checks and before the parameter
loops, exactly as in the source. -/
def validate_profile (schema : Schema) (category : String) (settings : Profile) :
    Bool × Profile :=
  if schema = [] then (true, settings)
  else if !(containerOk schema settings) then (false, settings)
  else if category = "video" then
    let videoS := settings.video.getD []
    let speed := Section.getD videoS "speed_control" "1x"
    if !((schemaList schema "speed_controls").contains speed) then (false, settings)
    else
      let settings' :=
        match settings.audio with
        | some a => { settings with audio := some (Section.set a "audio_speed" speed) }
        | none => settings
      (videoParamsOk schema videoS && audioParamsOkV schema (settings'.audio.getD []),
       settings')
  else if category = "audio" then
    (audioParamsOkA schema (settings.audio.getD []), settings)
  else (true, settings)

/-- `FormatProfiles.get_profile`. -/
def get_profile (fp : FormatProfiles) (category name : String) : Option Profile :=
  match assocGet fp.cats category with
  | none => none
  | some profs => assocGet profs name

/-- `FormatProfiles.add_profile` (the `_save_profiles` disk write is
outside the model).  Note that the object stored on success is the
settings object *after* validation, i.e. including the `audio_speed`
write-through performed by `_validate_profile`. -/
def add_profile (fp : FormatProfiles) (category name : String) (settings : Profile) :
    Bool × FormatProfiles :=
  if category = "audio" ∨ category = "video" then
    let r := validate_profile fp.schema category settings
    if r.1 then
      let newCats :=
        assocSet fp.cats category
          (assocSet ((assocGet fp.cats category).getD []) name r.2)
      (true, { fp with cats := newCats })
    else (false, fp)
  else (false, fp)

/-- Section access by name, for `edit_profile_parameter`'s
`profile[section]`.  The source stores sections as dictionary entries next
to the `container` string; only `"video"` and `"audio"` name sections. -/
def sectionOf (p : Profile) (sec : String) : Option Section :=
  if sec = "video" then p.video else if sec = "audio" then p.audio else none

/-- Replace a named section of a profile. -/
def setSectionOf (p : Profile) (sec : String) (s : Section) : Profile :=
  if sec = "video" then { p with video := some s }
  else if sec = "audio" then { p with audio := some s }
  else p

/-- `FormatProfiles.edit_profile_parameter`.  The source takes the single
string `"section.param"` and splits it on the dot; the two halves are
taken here as separate arguments.  The schema membership check uses the
derived key `f"{section}_{param}s"` and is skipped entirely when that key
is not in the schema. -/
def edit_profile_parameter (fp : FormatProfiles)
    (category name sec param newValue : String) : Bool × FormatProfiles :=
  match assocGet fp.cats category with
  | none => (false, fp)
  | some profs =>
    match assocGet profs name with
    | none => (false, fp)
    | some profile =>
      match sectionOf profile sec with
      | none => (false, fp)
      | some s =>
        if (Section.get s param).isNone then (false, fp)
        else
          let check : Bool :=
            match assocGet fp.schema (sec ++ "_" ++ param ++ "s") with
            | none => true
            | some opts => newValue == "copy" || opts.contains newValue
          if check then
            let updated := setSectionOf profile sec (Section.set s param newValue)
            (true, { fp with cats := assocSet fp.cats category (assocSet profs name updated) })
          else (false, fp)

/-! ## The migration pass of `_load_profiles` -/

/-- Migration of one video-category profile (`_load_profiles`, the
`category == "video"` arm): if the `video` section exists and lacks
`speed_control`, set it from `audio.audio_speed` when present else `"1x"`;
then, only when the `audio` section exists *and already has* an
`audio_speed` key, overwrite that key with the (possibly fresh)
`video.speed_control`. -/
def migrateVideoProfile (p : Profile) : Profile :=
  match p.video with
  | none => p
  | some v =>
    let v' :=
      if (Section.get v "speed_control").isSome then v
      else Section.set v "speed_control" (Section.getD (p.audio.getD []) "audio_speed" "1x")
    match p.audio with
    | none => { p with video := some v' }
    | some a =>
      if (Section.get a "audio_speed").isSome then
        { p with video := some v',
                 audio := some (Section.set a "audio_speed"
                    (Section.getD v' "speed_control" "1x")) }
      else { p with video := some v' }

/-- Migration of one audio-category profile (`_load_profiles`, the
`category == "audio"` arm). -/
def migrateAudioProfile (p : Profile) : Profile :=
  match p.audio with
  | none => p
  | some a =>
    if (Section.get a "audio_speed").isSome then p
    else { p with audio := some (Section.set a "audio_speed" "1x") }

/-- The whole migration pass over the profile collection (the `"schema"`
pseudo-category is skipped by the source loop and lives outside `cats`). -/
def migrateCats (cats : List (String × List (String × Profile))) :
    List (String × List (String × Profile)) :=
  cats.map fun cp =>
    if cp.1 = "video" then (cp.1, cp.2.map fun np => (np.1, migrateVideoProfile np.2))
    else if cp.1 = "audio" then (cp.1, cp.2.map fun np => (np.1, migrateAudioProfile np.2))
    else cp

/-! ## Speed parsing and filter expressions -/

/-- Decimal digits to a number (`int`-style accumulation). -/
def digitsVal (l : List Char) : ℕ :=
  l.foldl (fun n c => n * 10 + (c.toNat - 48)) 0

/-- A decimal literal as an exact rational (`float(...)` in the source;
every schema speed value is dyadic, hence exact in the source's floats
too). -/
def decToRat (s : String) : ℚ :=
  match s.splitOn "." with
  | [a] => (digitsVal a.toList : ℚ)
  | [a, b] => (digitsVal a.toList : ℚ) + (digitsVal b.toList : ℚ) / 10 ^ b.length
  | _ => 0

/-- `float(value.replace('x', ''))`. -/
def parseSpeed (s : String) : ℚ := decToRat (s.replace "x" "")

/-- The presentation-timestamp filter `f'setpts={1/speed}*PTS'`.  The
source interpolates the Python float `1/speed`; we render the exact
rational, which differs from the source only in number formatting. -/
def setptsFilter (speed : ℚ) : String :=
  "setpts=" ++ toString (1 / speed) ++ "*PTS"

/-! ## Command builders -/

/-- `if sec.get(key) != "copy": cmd.extend([flag, sec[key]])`.  When the
key is absent the source's guard is true (`None != "copy"`) and the
access `sec[key]` raises `KeyError`; the model totalises that crash case
with `""`.  All theorems below quantify over profiles that carry the
accessed keys, where the two agree. -/
def optFlag (s : Section) (key flag : String) : List String :=
  if Section.get s key ≠ some "copy" then [flag, (Section.get s key).getD ""] else []

/-- Video portion of `FormatProfiles.generate_ffmpeg_command`
(profiles.py).  Returns the emitted tokens and the collected video
filters.  Note: no `-crf` flag here, and the `setpts` filter is only
built inside the `codec != "copy"` branch. -/
def genVideoPart (category : String) (p : Profile) : List String × List String :=
  if category = "video" then
    match p.video with
    | none => ([], [])
    | some video =>
      if Section.get video "codec" ≠ some "copy" then
        (["-c:v", (Section.get video "codec").getD ""] ++
           optFlag video "bitrate" "-b:v" ++ optFlag video "resolution" "-s" ++
           optFlag video "fps" "-r" ++ optFlag video "pixel_format" "-pix_fmt" ++
           optFlag video "preset" "-preset" ++ optFlag video "tune" "-tune",
         if Section.getD video "speed_control" "1x" ≠ "1x" then
           [setptsFilter (parseSpeed (Section.getD video "speed_control" "1x"))]
         else [])
      else (["-c:v", "copy"], [])
  else ([], [])

/-- Audio portion of `FormatProfiles.generate_ffmpeg_command`. -/
def genAudioPart (p : Profile) : List String × List String :=
  match p.audio with
  | none => ([], [])
  | some audio =>
    if Section.get audio "codec" ≠ some "copy" then
      (["-c:a", (Section.get audio "codec").getD ""] ++
         optFlag audio "bitrate" "-b:a" ++ optFlag audio "sample_rate" "-ar" ++
         optFlag audio "channels" "-ac",
       if Section.getD audio "audio_speed" "1x" ≠ "1x" then
         [atempoChainExpr (parseSpeed (Section.getD audio "audio_speed" "1x"))]
       else [])
    else (["-c:a", "copy"], [])

/-- `if filters: cmd.extend([flag, ','.join(filters)])`. -/
def filterSeg (flag : String) (filters : List String) : List String :=
  if filters = [] then [] else [flag, String.intercalate "," filters]

/-- Python falsiness of a stored profile: a dict is falsy iff it is
empty.  A profile record carries the `container` / `video` / `audio`
keys, so the empty dict `{}` is the profile with all three absent. -/
def Profile.falsy (p : Profile) : Bool :=
  p.container.isNone && p.video.isNone && p.audio.isNone

/-- `FormatProfiles.generate_ffmpeg_command` as the token list it
assembles.  The source's guard `if not profile: return None`
(profiles.py:568) is a falsiness check, so it yields the not-found
result both when `get_profile` finds nothing and when the stored profile
is the empty dict. -/
def generate_ffmpeg_cmd (fp : FormatProfiles)
    (input_file output_file category profile_name : String) : Option (List String) :=
  match get_profile fp category profile_name with
  | none => none
  | some profile =>
    if profile.falsy then none
    else
      let vp := genVideoPart category profile
      let ap := genAudioPart profile
      some (["ffmpeg", "-i", input_file] ++ vp.1 ++ ap.1 ++
        filterSeg "-filter:v" vp.2 ++ filterSeg "-filter:a" ap.2 ++ [output_file])

/-- The string the source actually returns: `' '.join(cmd)`. -/
def generate_ffmpeg_command (fp : FormatProfiles)
    (input_file output_file category profile_name : String) : Option String :=
  (generate_ffmpeg_cmd fp input_file output_file category profile_name).map
    (String.intercalate " ")

/-- Effective speed of `MediaConverter.convert_file_with_profile`:
`video.speed_control` for a video-category profile with a video section,
else `audio.audio_speed`, defaulting to `"1x"`. -/
def convTargetSpeed (p : Profile) (category : String) : String :=
  if category = "video" ∧ p.video.isSome then
    Section.getD (p.video.getD []) "speed_control" "1x"
  else if p.audio.isSome then
    Section.getD (p.audio.getD []) "audio_speed" "1x"
  else "1x"

/-- The seven per-field video flags of the converter's video branch, each
emitted only when the field's value is not `"copy"` (converter.py emits
them in this order, `-crf` last). -/
def videoSubFlags (v : Section) : List String :=
  optFlag v "bitrate" "-b:v" ++ optFlag v "resolution" "-s" ++
  optFlag v "fps" "-r" ++ optFlag v "pixel_format" "-pix_fmt" ++
  optFlag v "preset" "-preset" ++ optFlag v "tune" "-tune" ++
  optFlag v "crf" "-crf"

/-- The three per-field audio flags of the converter's audio branch. -/
def audioSubFlags (a : Section) : List String :=
  optFlag a "bitrate" "-b:a" ++ optFlag a "sample_rate" "-ar" ++
  optFlag a "channels" "-ac"

/-- Video branch of `convert_file_with_profile` (converter.py): collects
the `setpts` filter first, force-switches a `"copy"` codec to `libx264`
when the speed is not `"1x"`, then emits the codec selector and — when
the (possibly switched) codec is not `"copy"` — the seven per-field
flags, `-crf` included. -/
def convVideoPart (p : Profile) (category : String) : List String × List String :=
  if category = "video" ∧ p.video.isSome then
    let video := p.video.getD []
    let target := convTargetSpeed p category
    let vf := if target ≠ "1x" then [setptsFilter (parseSpeed target)] else []
    let video' :=
      if target ≠ "1x" ∧ Section.get video "codec" = some "copy" then
        Section.set video "codec" "libx264"
      else video
    (["-c:v", Section.getD video' "codec" "copy"] ++
       (if Section.get video' "codec" ≠ some "copy" then videoSubFlags video' else []),
     vf)
  else ([], [])

/-- Audio branch of `convert_file_with_profile`: force-switches a
`"copy"` codec to `aac` and builds the `atempo` chain whenever the
effective speed is not `"1x"`, then emits the codec selector and the
bitrate / sample-rate / channel flags. -/
def convAudioPart (p : Profile) (category : String) : List String × List String :=
  match p.audio with
  | none => ([], [])
  | some audio =>
    let target := convTargetSpeed p category
    let audio' :=
      if target ≠ "1x" ∧ Section.get audio "codec" = some "copy" then
        Section.set audio "codec" "aac"
      else audio
    let af := if target ≠ "1x" then [atempoChainExpr (parseSpeed target)] else []
    (["-c:a", Section.getD audio' "codec" "copy"] ++
       (if Section.get audio' "codec" ≠ some "copy" then audioSubFlags audio' else []),
     af)

/-- The full command of `convert_file_with_profile`: body followed by the
output path, then the monitoring flags spliced in with the source's four
`insert` calls. -/
def convert_file_cmd (p : Profile) (category input_path output_path : String) :
    List String :=
  let vp := convVideoPart p category
  let ap := convAudioPart p category
  let core := ["ffmpeg", "-i", input_path] ++ vp.1 ++ ap.1 ++
    filterSeg "-filter:v" vp.2 ++ filterSeg "-filter:a" ap.2 ++ [output_path]
  List.insertIdx 1 "-y"
    (List.insertIdx 3 "-nostats" (List.insertIdx 2 "pipe:1" (List.insertIdx 1 "-progress" core)))

/-! ## Concrete instances (the built-in default schema and default-style
profiles of `_load_profiles`), used for witnesses and counterexamples. -/

/-- The default schema registry written by `_load_profiles` when no
profile file exists. -/
def defaultSchema : Schema :=
  [("video_codecs", ["copy", "libx264", "libx265", "libvpx-vp9", "mpeg4", "prores"]),
   ("resolutions", ["copy", "3840x2160", "2560x1440", "1920x1080", "1280x720", "854x480",
      "640x360", "custom (e.g., 720x1280)"]),
   ("video_bitrates", ["copy", "1M", "2M", "4M", "6M", "8M", "10M", "12M", "15M", "20M"]),
   ("crf_values", ["copy", "16", "17", "18", "19", "20", "21", "22", "23", "24", "25",
      "26", "27", "28"]),
   ("framerates", ["copy", "23.976", "24", "25", "29.97", "30", "48", "50", "59.94", "60"]),
   ("pixel_formats", ["copy", "yuv420p", "yuv422p", "yuv444p", "rgb24", "yuv420p10le",
      "yuv422p10le"]),
   ("gop_sizes", ["copy", "30", "60", "120"]),
   ("presets", ["copy", "ultrafast", "superfast", "veryfast", "faster", "fast", "medium",
      "slow", "slower", "veryslow", "placebo"]),
   ("tune_options", ["copy", "film", "animation", "grain", "stillimage", "fastdecode",
      "zerolatency"]),
   ("speed_controls", ["0.25x", "0.5x", "0.75x", "1x", "1.25x", "1.5x", "1.75x", "2x",
      "4x", "10x"]),
   ("audio_codecs", ["copy", "aac", "libmp3lame", "flac", "opus", "pcm_s16le", "pcm_s24le",
      "vorbis"]),
   ("audio_bitrates", ["copy", "96k", "128k", "160k", "192k", "224k", "256k", "320k",
      "384k", "448k", "512k"]),
   ("sample_rates", ["copy", "22050", "32000", "44100", "48000", "88200", "96000"]),
   ("channel_layouts", ["copy", "1", "2", "2.1", "3", "4", "5.0", "5.1", "6.1", "7.1"]),
   ("audio_speeds", ["0.25x", "0.5x", "0.75x", "1x", "1.25x", "1.5x", "1.75x", "2x",
      "4x", "10x"]),
   ("containers", ["mp4", "mkv", "mov", "webm", "avi", "ts", "mxf", "mp3", "m4a", "flac",
      "wav", "ogg"])]

/-- A `fast_motion`-style video profile, with the codec set to `"copy"`
so that the force-switch path is exercised. -/
def demoVideoSection : Section :=
  [("codec", "copy"), ("resolution", "1920x1080"), ("bitrate", "2M"), ("crf", "23"),
   ("fps", "30"), ("pixel_format", "yuv420p"), ("gop", "60"), ("preset", "medium"),
   ("tune", "film"), ("speed_control", "2x")]

/-- The matching audio section of the demo video profile. -/
def demoAudioSection : Section :=
  [("codec", "aac"), ("bitrate", "192k"), ("sample_rate", "48000"), ("channels", "2"),
   ("audio_speed", "2x")]

/-- Demo video profile. -/
def demoVideoProfile : Profile :=
  { container := some "mp4", video := some demoVideoSection, audio := some demoAudioSection }

/-- A `double_speed`-style audio profile. -/
def demoAudioProfile : Profile :=
  { container := some "mp3",
    video := none,
    audio := some [("codec", "libmp3lame"), ("bitrate", "320k"), ("sample_rate", "44100"),
      ("channels", "2"), ("audio_speed", "2x")] }

/-- A small profile store over the default schema. -/
def demoStore : FormatProfiles :=
  { cats := [("video", [("p", demoVideoProfile)]), ("audio", [("q", demoAudioProfile)])],
    schema := defaultSchema }

/-- A legacy on-disk video profile predating the speed fields: the video
section lacks `speed_control` and the audio section lacks `audio_speed`
(the shipped default `youtube_1080p` profile has exactly such an audio
section). -/
def legacyProfile : Profile :=
  { container := some "mp4",
    video := some [("codec", "libx264")],
    audio := some [("codec", "aac")] }

/-! ## Claims about validation and the profile store -/

theorem get_profile_set (fp : FormatProfiles) (category name : String)
    (profs : List (String × Profile)) (p : Profile) :
    get_profile { fp with cats := assocSet fp.cats category (assocSet profs name p) }
      category name = some p := by
  simp [get_profile, assocGet_assocSet_self]

/-- C7: with a schema registry present, `validate("video", settings)`
returns `false` whenever the container is not among the registered
containers, regardless of every other field; and the check runs before
any per-parameter work — in particular before the `audio_speed`
write-through, so the settings object is returned untouched. -/
theorem validate_video_rejects_bad_container (schema : Schema) (settings : Profile)
    (hs : schema ≠ []) (hc : containerOk schema settings = false) :
    (validate_profile schema "video" settings).1 = false ∧
      (validate_profile schema "video" settings).2 = settings := by
  unfold validate_profile
  rw [if_neg hs]
  simp [hc]

/-- Witness for C7: an unknown container `"xyz"` on an otherwise fully
valid video profile is rejected by the default schema. -/
theorem validate_video_rejects_bad_container_witness :
    (validate_profile defaultSchema "video"
        { demoVideoProfile with container := some "xyz" }).1 = false ∧
      (validate_profile defaultSchema "video"
        { demoVideoProfile with container := some "xyz" }).2 =
        { demoVideoProfile with container := some "xyz" } :=
  validate_video_rejects_bad_container defaultSchema _ (by decide) (by decide)

/-- C10: when the profile collection has no `"schema"` key (or it maps to
an empty record), `_validate_profile` short-circuits to `true`, so
`add_profile` accepts and stores any settings record whatsoever for
either real category — unknown container included. -/
theorem add_profile_accepts_all_without_schema (fp : FormatProfiles)
    (category name : String) (settings : Profile) (hs : fp.schema = [])
    (hcat : category = "audio" ∨ category = "video") :
    (add_profile fp category name settings).1 = true ∧
      get_profile (add_profile fp category name settings).2 category name =
        some settings := by
  have hv : validate_profile fp.schema category settings = (true, settings) := by
    unfold validate_profile
    rw [if_pos hs]
  have hstep : add_profile fp category name settings =
      (true, { fp with cats := (assocSet fp.cats category
        (assocSet ((assocGet fp.cats category).getD []) name settings)) }) := by
    unfold add_profile
    rw [if_pos hcat]
    simp [hv]
  rw [hstep]
  exact ⟨rfl, get_profile_set fp category name _ settings⟩

/-- Witness for C10: a schema-less store persists a profile with the
unknown container `"weird"`. -/
theorem add_profile_accepts_all_without_schema_witness :
    (add_profile { cats := [], schema := [] } "video" "anything"
        { legacyProfile with container := some "weird" }).1 = true ∧
      get_profile (add_profile { cats := [], schema := [] } "video" "anything"
          { legacyProfile with container := some "weird" }).2 "video" "anything" =
        some { legacyProfile with container := some "weird" } :=
  add_profile_accepts_all_without_schema _ "video" "anything" _ rfl (Or.inr rfl)

/-- C9: `_validate_profile` is not side-effect-free: once the container
and speed-control checks pass and an audio section exists, the settings
object it hands back has `audio.audio_speed` overwritten with
`video.speed_control` — no matter whether the verdict is `true` or
`false`; and a successful `add_profile` stores exactly that mutated
object. -/
theorem validate_video_mutates_audio_speed (schema : Schema) (settings : Profile)
    (a : Section) (hs : schema ≠ []) (hc : containerOk schema settings = true)
    (hspd : Section.getD (settings.video.getD []) "speed_control" "1x" ∈
        schemaList schema "speed_controls")
    (ha : settings.audio = some a) :
    (validate_profile schema "video" settings).2 =
      { settings with audio := some (Section.set a "audio_speed"
          (Section.getD (settings.video.getD []) "speed_control" "1x")) } ∧
    (∀ (fp : FormatProfiles) (name : String), fp.schema = schema →
      (add_profile fp "video" name settings).1 = true →
      get_profile (add_profile fp "video" name settings).2 "video" name =
        some ((validate_profile schema "video" settings).2)) := by
  have hval : (validate_profile schema "video" settings).2 =
      { settings with audio := some (Section.set a "audio_speed"
          (Section.getD (settings.video.getD []) "speed_control" "1x")) } := by
    unfold validate_profile
    rw [if_neg hs]
    simp [hc, hspd, ha]
  refine ⟨hval, ?_⟩
  intro fp name hfps hok
  have h1 : (validate_profile fp.schema "video" settings).1 = true := by
    by_contra hfalse
    unfold add_profile at hok
    rw [if_pos (Or.inr rfl)] at hok
    simp only [Bool.not_eq_true] at hfalse
    simp [hfalse] at hok
  have hstep : add_profile fp "video" name settings =
      (true, { fp with cats := (assocSet fp.cats "video"
        (assocSet ((assocGet fp.cats "video").getD []) name
          ((validate_profile fp.schema "video" settings).2))) }) := by
    unfold add_profile
    rw [if_pos (Or.inr rfl)]
    simp [h1]
  rw [hstep, get_profile_set, hfps]

/-- Witness for C9 at a concrete input: the demo video profile with an
invalid audio bitrate fails validation, yet the returned object already
carries the synchronized `audio_speed`; and a valid variant is stored
mutated by `add_profile`. -/
theorem validate_video_mutates_audio_speed_witness :
    (validate_profile defaultSchema "video"
        { demoVideoProfile with audio := some [("codec", "aac"), ("bitrate", "999k"),
            ("audio_speed", "1x")] }).2 =
      { demoVideoProfile with audio := some (Section.set
          [("codec", "aac"), ("bitrate", "999k"), ("audio_speed", "1x")] "audio_speed"
          (Section.getD (Option.getD (Profile.video demoVideoProfile) [])
            "speed_control" "1x")) } ∧
    get_profile (add_profile demoStore "video" "fresh"
        { demoVideoProfile with audio := some [("codec", "aac"), ("bitrate", "192k"),
            ("audio_speed", "1x")] }).2 "video" "fresh" =
      some ((validate_profile defaultSchema "video"
        { demoVideoProfile with audio := some [("codec", "aac"), ("bitrate", "192k"),
            ("audio_speed", "1x")] }).2) := by
  constructor
  · exact (validate_video_mutates_audio_speed defaultSchema
      { demoVideoProfile with audio := some [("codec", "aac"), ("bitrate", "999k"),
          ("audio_speed", "1x")] } _ (by decide) (by decide) (by decide) rfl).1
  · exact (validate_video_mutates_audio_speed defaultSchema
      { demoVideoProfile with audio := some [("codec", "aac"), ("bitrate", "192k"),
          ("audio_speed", "1x")] } _ (by decide) (by decide) (by decide) rfl).2
      demoStore "fresh" rfl (by decide)

/-! ## Claims about the command builders -/

/-- Counterexample to C8: the not-found result is not equivalent to the
profile's absence.  An empty profile record (`{}` is falsy in Python) is
storable — `add_profile` accepts it under the schema-less regime — and
`get_profile` then finds it, yet `generate_ffmpeg_command` still returns
the not-found result because of the falsiness guard
`if not profile: return None`. -/
theorem generate_cmd_empty_profile_not_found_cex :
    (add_profile { cats := [], schema := [] } "video" "e"
        { container := none, video := none, audio := none }).1 = true ∧
    get_profile (add_profile { cats := [], schema := [] } "video" "e"
        { container := none, video := none, audio := none }).2 "video" "e" =
      some { container := none, video := none, audio := none } ∧
    generate_ffmpeg_cmd (add_profile { cats := [], schema := [] } "video" "e"
        { container := none, video := none, audio := none }).2
        "a.mp4" "b.mp4" "video" "e" = none :=
  ⟨rfl, rfl, rfl⟩

/-- C8 amended: `generate_ffmpeg_command` yields its not-found result
exactly when no profile is stored under the requested category and name
or the stored profile is the empty record (falsy in the source's
`if not profile` guard); a non-empty profile without the section
matching the category is tolerated — the video branch is skipped and the
command is the input declaration, the audio parameters and filters
alone, and the output path last. -/
theorem generate_cmd_not_found_iff_falsy_and_partial_sections :
    (∀ (fp : FormatProfiles) (i o cat name : String),
        generate_ffmpeg_cmd fp i o cat name = none ↔
          (get_profile fp cat name = none ∨
            ∃ p, get_profile fp cat name = some p ∧ p.falsy = true)) ∧
    (∀ (fp : FormatProfiles) (i o name : String) (p : Profile),
        get_profile fp "video" name = some p → p.falsy = false → p.video = none →
        generate_ffmpeg_cmd fp i o "video" name =
          some (["ffmpeg", "-i", i] ++ (genAudioPart p).1 ++
            filterSeg "-filter:a" (genAudioPart p).2 ++ [o])) := by
  constructor
  · intro fp i o cat name
    unfold generate_ffmpeg_cmd
    cases h : get_profile fp cat name with
    | none => simp
    | some p =>
      by_cases hf : p.falsy = true
      · simp [hf]
      · simp [hf]
  · intro fp i o name p hp hf hvnone
    unfold generate_ffmpeg_cmd
    simp only [hp]
    rw [if_neg (by rw [hf]; exact fun h => nomatch h)]
    have hgv : genVideoPart "video" p = ([], []) := by
      unfold genVideoPart
      rw [if_pos rfl, hvnone]
    simp [hgv, filterSeg]

/-- Witness for the amended C8: a missing name on the demo store, and a
video request against a non-empty profile that has no video section
(only audio tokens are emitted). -/
theorem generate_cmd_not_found_iff_falsy_and_partial_sections_witness :
    (generate_ffmpeg_cmd demoStore "i.mp4" "o.mp4" "video" "missing" = none ↔
      (get_profile demoStore "video" "missing" = none ∨
        ∃ p, get_profile demoStore "video" "missing" = some p ∧ p.falsy = true)) ∧
    generate_ffmpeg_cmd
        { cats := [("video", [("a", demoAudioProfile)])], schema := defaultSchema }
        "in.wav" "out.mp3" "video" "a" =
      some (["ffmpeg", "-i", "in.wav"] ++ (genAudioPart demoAudioProfile).1 ++
        filterSeg "-filter:a" (genAudioPart demoAudioProfile).2 ++ ["out.mp3"]) :=
  ⟨generate_cmd_not_found_iff_falsy_and_partial_sections.1 demoStore "i.mp4" "o.mp4"
      "video" "missing",
   generate_cmd_not_found_iff_falsy_and_partial_sections.2
      { cats := [("video", [("a", demoAudioProfile)])], schema := defaultSchema }
      "in.wav" "out.mp3" "a" demoAudioProfile rfl rfl rfl⟩

theorem intercalate_singleton (sep x : String) : String.intercalate sep [x] = x := rfl

theorem insertIdx_finalize (x : String) (rest : List String) :
    List.insertIdx 1 "-y" (List.insertIdx 3 "-nostats" (List.insertIdx 2 "pipe:1"
      (List.insertIdx 1 "-progress" (x :: rest)))) =
      x :: "-y" :: "-progress" :: "pipe:1" :: "-nostats" :: rest := rfl

/-- The converter command in closed form: the monitoring prefix followed
by the body segments in emission order. -/
theorem convert_file_cmd_eq (p : Profile) (cat i o : String) :
    convert_file_cmd p cat i o =
      "ffmpeg" :: "-y" :: "-progress" :: "pipe:1" :: "-nostats" :: "-i" :: i ::
        ((convVideoPart p cat).1 ++ (convAudioPart p cat).1 ++
         filterSeg "-filter:v" (convVideoPart p cat).2 ++
         filterSeg "-filter:a" (convAudioPart p cat).2 ++ [o]) := by
  unfold convert_file_cmd
  have hcore : ["ffmpeg", "-i", i] ++ (convVideoPart p cat).1 ++ (convAudioPart p cat).1 ++
      filterSeg "-filter:v" (convVideoPart p cat).2 ++
      filterSeg "-filter:a" (convAudioPart p cat).2 ++ [o] =
      "ffmpeg" :: ("-i" :: i ::
        ((convVideoPart p cat).1 ++ (convAudioPart p cat).1 ++
         filterSeg "-filter:v" (convVideoPart p cat).2 ++
         filterSeg "-filter:a" (convAudioPart p cat).2 ++ [o])) := by
    simp [List.append_assoc]
  dsimp only
  rw [hcore, insertIdx_finalize]

theorem optFlag_of_get (s : Section) (key flag val : String)
    (h : Section.get s key = some val) :
    optFlag s key flag = if val = "copy" then [] else [flag, val] := by
  unfold optFlag
  rw [h]
  by_cases hv : val = "copy" <;> simp [hv]

/-- C2: for a video profile whose codec is `"copy"` while its
`speed_control` is not `"1x"`, the converter's command carries a forced
`-c:v libx264` selector (never `copy`) and the `setpts` filter for the
speed change. -/
theorem convert_forces_reencode_on_speed (p : Profile) (v : Section) (i o : String)
    (hv : p.video = some v)
    (hcodec : Section.get v "codec" = some "copy")
    (hspd : Section.getD v "speed_control" "1x" ≠ "1x") :
    convert_file_cmd p "video" i o =
      "ffmpeg" :: "-y" :: "-progress" :: "pipe:1" :: "-nostats" :: "-i" :: i ::
        (("-c:v" :: "libx264" :: videoSubFlags (Section.set v "codec" "libx264")) ++
         (convAudioPart p "video").1 ++
         ["-filter:v", setptsFilter (parseSpeed (Section.getD v "speed_control" "1x"))] ++
         filterSeg "-filter:a" (convAudioPart p "video").2 ++ [o]) := by
  have hvs : p.video.isSome = true := by rw [hv]; rfl
  have htgt : convTargetSpeed p "video" = Section.getD v "speed_control" "1x" := by
    simp [convTargetSpeed, hv]
  have hvp : convVideoPart p "video" =
      ("-c:v" :: "libx264" :: videoSubFlags (Section.set v "codec" "libx264"),
       [setptsFilter (parseSpeed (Section.getD v "speed_control" "1x"))]) := by
    unfold convVideoPart
    rw [if_pos ⟨rfl, hvs⟩]
    simp only [htgt, hv, Option.getD_some]
    rw [if_pos hspd, if_pos ⟨hspd, hcodec⟩]
    rw [show Section.getD (Section.set v "codec" "libx264") "codec" "copy" = "libx264" by
      rw [Section.getD, Section.get_set_self]; rfl]
    rw [if_pos (by rw [Section.get_set_self]; simp)]
    rfl
  rw [convert_file_cmd_eq, hvp]
  simp [filterSeg, intercalate_singleton]

/-- Witness for C2 on the demo profile (`codec = "copy"`,
`speed_control = "2x"`). -/
theorem convert_forces_reencode_on_speed_witness :
    convert_file_cmd demoVideoProfile "video" "in.mp4" "out.mp4" =
      "ffmpeg" :: "-y" :: "-progress" :: "pipe:1" :: "-nostats" :: "-i" :: "in.mp4" ::
        (("-c:v" :: "libx264" ::
            videoSubFlags (Section.set demoVideoSection "codec" "libx264")) ++
         (convAudioPart demoVideoProfile "video").1 ++
         ["-filter:v", setptsFilter (parseSpeed
            (Section.getD demoVideoSection "speed_control" "1x"))] ++
         filterSeg "-filter:a" (convAudioPart demoVideoProfile "video").2 ++ ["out.mp4"]) :=
  convert_forces_reencode_on_speed demoVideoProfile demoVideoSection "in.mp4" "out.mp4"
    rfl rfl (by decide)

/-- C5: in the converter's video branch, with a non-`"copy"` codec, the
bitrate, resolution, fps, pixel-format, preset, tune and crf flags are
each emitted exactly when the corresponding field is not `"copy"`, in
that fixed order. -/
theorem convert_video_flags_iff_not_copy (p : Profile) (v : Section) (i o : String)
    (c b r0 f0 px pr tu cr : String)
    (hv : p.video = some v)
    (hcodec : Section.get v "codec" = some c) (hc : c ≠ "copy")
    (hb : Section.get v "bitrate" = some b)
    (hr : Section.get v "resolution" = some r0)
    (hf : Section.get v "fps" = some f0)
    (hpx : Section.get v "pixel_format" = some px)
    (hpr : Section.get v "preset" = some pr)
    (htu : Section.get v "tune" = some tu)
    (hcr : Section.get v "crf" = some cr) :
    convert_file_cmd p "video" i o =
      "ffmpeg" :: "-y" :: "-progress" :: "pipe:1" :: "-nostats" :: "-i" :: i ::
        (["-c:v", c] ++
         (if b = "copy" then [] else ["-b:v", b]) ++
         (if r0 = "copy" then [] else ["-s", r0]) ++
         (if f0 = "copy" then [] else ["-r", f0]) ++
         (if px = "copy" then [] else ["-pix_fmt", px]) ++
         (if pr = "copy" then [] else ["-preset", pr]) ++
         (if tu = "copy" then [] else ["-tune", tu]) ++
         (if cr = "copy" then [] else ["-crf", cr]) ++
         (convAudioPart p "video").1 ++
         filterSeg "-filter:v" (convVideoPart p "video").2 ++
         filterSeg "-filter:a" (convAudioPart p "video").2 ++ [o]) := by
  have hvs : p.video.isSome = true := by rw [hv]; rfl
  have hnc : ¬(some c = some "copy") := by
    intro h
    exact hc (Option.some.inj h)
  have hforce : ¬(convTargetSpeed p "video" ≠ "1x" ∧
      Section.get v "codec" = some "copy") := by
    rintro ⟨-, h⟩
    rw [hcodec] at h
    exact hnc h
  have hsubs : videoSubFlags v =
      (if b = "copy" then [] else ["-b:v", b]) ++
      (if r0 = "copy" then [] else ["-s", r0]) ++
      (if f0 = "copy" then [] else ["-r", f0]) ++
      (if px = "copy" then [] else ["-pix_fmt", px]) ++
      (if pr = "copy" then [] else ["-preset", pr]) ++
      (if tu = "copy" then [] else ["-tune", tu]) ++
      (if cr = "copy" then [] else ["-crf", cr]) := by
    unfold videoSubFlags
    rw [optFlag_of_get v "bitrate" "-b:v" b hb,
        optFlag_of_get v "resolution" "-s" r0 hr,
        optFlag_of_get v "fps" "-r" f0 hf,
        optFlag_of_get v "pixel_format" "-pix_fmt" px hpx,
        optFlag_of_get v "preset" "-preset" pr hpr,
        optFlag_of_get v "tune" "-tune" tu htu,
        optFlag_of_get v "crf" "-crf" cr hcr]
  have hvp1 : (convVideoPart p "video").1 = ["-c:v", c] ++ videoSubFlags v := by
    unfold convVideoPart
    rw [if_pos ⟨rfl, hvs⟩]
    simp only [hv, Option.getD_some]
    rw [if_neg hforce]
    rw [show Section.getD v "codec" "copy" = c by rw [Section.getD, hcodec]; rfl]
    rw [if_pos (by rw [hcodec]; exact hnc)]
  rw [convert_file_cmd_eq, hvp1, hsubs]
  simp [List.append_assoc]

/-- Witness for C5: a fully populated section with `bitrate = "copy"`
(flag suppressed) and every other field explicit. -/
theorem convert_video_flags_iff_not_copy_witness :
    convert_file_cmd
        { container := some "mp4",
          video := some [("codec", "libx264"), ("resolution", "1920x1080"),
            ("bitrate", "copy"), ("crf", "23"), ("fps", "30"),
            ("pixel_format", "yuv420p"), ("gop", "60"), ("preset", "medium"),
            ("tune", "film"), ("speed_control", "1x")],
          audio := some demoAudioSection } "video" "a.mov" "b.mp4" =
      "ffmpeg" :: "-y" :: "-progress" :: "pipe:1" :: "-nostats" :: "-i" :: "a.mov" ::
        (["-c:v", "libx264"] ++
         (if ("copy" : String) = "copy" then [] else ["-b:v", "copy"]) ++
         (if ("1920x1080" : String) = "copy" then [] else ["-s", "1920x1080"]) ++
         (if ("30" : String) = "copy" then [] else ["-r", "30"]) ++
         (if ("yuv420p" : String) = "copy" then [] else ["-pix_fmt", "yuv420p"]) ++
         (if ("medium" : String) = "copy" then [] else ["-preset", "medium"]) ++
         (if ("film" : String) = "copy" then [] else ["-tune", "film"]) ++
         (if ("23" : String) = "copy" then [] else ["-crf", "23"]) ++
         (convAudioPart
            { container := some "mp4",
              video := some [("codec", "libx264"), ("resolution", "1920x1080"),
                ("bitrate", "copy"), ("crf", "23"), ("fps", "30"),
                ("pixel_format", "yuv420p"), ("gop", "60"), ("preset", "medium"),
                ("tune", "film"), ("speed_control", "1x")],
              audio := some demoAudioSection } "video").1 ++
         filterSeg "-filter:v" (convVideoPart
            { container := some "mp4",
              video := some [("codec", "libx264"), ("resolution", "1920x1080"),
                ("bitrate", "copy"), ("crf", "23"), ("fps", "30"),
                ("pixel_format", "yuv420p"), ("gop", "60"), ("preset", "medium"),
                ("tune", "film"), ("speed_control", "1x")],
              audio := some demoAudioSection } "video").2 ++
         filterSeg "-filter:a" (convAudioPart
            { container := some "mp4",
              video := some [("codec", "libx264"), ("resolution", "1920x1080"),
                ("bitrate", "copy"), ("crf", "23"), ("fps", "30"),
                ("pixel_format", "yuv420p"), ("gop", "60"), ("preset", "medium"),
                ("tune", "film"), ("speed_control", "1x")],
              audio := some demoAudioSection } "video").2 ++ ["b.mp4"]) :=
  convert_video_flags_iff_not_copy _ _ "a.mov" "b.mp4"
    "libx264" "copy" "1920x1080" "30" "yuv420p" "medium" "film" "23"
    rfl rfl (by decide) rfl rfl rfl rfl rfl rfl rfl

/-! ## Parameter editing (C3, C4) -/

/-- Counterexample to C3: on the demo store,
`edit_profile_parameter("video", "p", "video.speed_control", "4x")`
succeeds, yet the profile's `audio.audio_speed` still holds its old value
`"2x"` afterwards — the edit does not write through to the audio side
(the synchronization is performed separately by the interactive caller in
cli.py, which issues a second edit). -/
theorem edit_speed_control_no_write_through_cex :
    (edit_profile_parameter demoStore "video" "p" "video" "speed_control" "4x").1 = true ∧
    ((get_profile (edit_profile_parameter demoStore "video" "p" "video" "speed_control"
          "4x").2 "video" "p").bind Profile.audio).bind
        (fun a => Section.get a "audio_speed") = some "2x" ∧
    ("2x" : String) ≠ "4x" :=
  ⟨rfl, rfl, by decide⟩

/-- C3 amended: a successful `video.speed_control` edit updates only the
video section; the audio section (and in particular `audio.audio_speed`)
is returned unchanged.  The hypothesis on `"video_speed_controls"` holds
for every schema the program writes: its speed list is keyed
`"speed_controls"`, so the edit-time membership check is skipped. -/
theorem edit_speed_control_updates_video_only (fp : FormatProfiles) (name v : String)
    (profs : List (String × Profile)) (p : Profile) (vsec : Section)
    (h1 : assocGet fp.cats "video" = some profs)
    (h2 : assocGet profs name = some p)
    (h3 : p.video = some vsec)
    (h4 : (Section.get vsec "speed_control").isSome = true)
    (h5 : assocGet fp.schema "video_speed_controls" = none) :
    (edit_profile_parameter fp "video" name "video" "speed_control" v).1 = true ∧
    get_profile (edit_profile_parameter fp "video" name "video" "speed_control" v).2
        "video" name =
      some { p with video := some (Section.set vsec "speed_control" v) } := by
  have hkey : ("video" ++ "_" ++ "speed_control" ++ "s") = "video_speed_controls" := rfl
  have hnone : (Section.get vsec "speed_control").isNone = false := by
    cases hg : Section.get vsec "speed_control"
    · rw [hg] at h4; simp at h4
    · rfl
  have hsec : sectionOf p "video" = some vsec := by simp [sectionOf, h3]
  have hupd : setSectionOf p "video" (Section.set vsec "speed_control" v) =
      { p with video := some (Section.set vsec "speed_control" v) } := by
    simp [setSectionOf]
  have hstep : edit_profile_parameter fp "video" name "video" "speed_control" v =
      (true, { fp with cats := (assocSet fp.cats "video" (assocSet profs name
        { p with video := some (Section.set vsec "speed_control" v) })) }) := by
    unfold edit_profile_parameter
    simp only [h1, h2, hsec]
    rw [hkey, h5]
    simp [hnone, hupd]
  rw [hstep]
  exact ⟨rfl, get_profile_set fp "video" name _ _⟩

/-- Witness for the amended C3 on the demo store. -/
theorem edit_speed_control_updates_video_only_witness :
    (edit_profile_parameter demoStore "video" "p" "video" "speed_control" "4x").1 = true ∧
    get_profile (edit_profile_parameter demoStore "video" "p" "video" "speed_control"
        "4x").2 "video" "p" =
      some { demoVideoProfile with
        video := some (Section.set demoVideoSection "speed_control" "4x") } :=
  edit_speed_control_updates_video_only demoStore "p" "4x" _ demoVideoProfile
    demoVideoSection rfl rfl rfl (by decide) (by decide)

/-- Counterexample to C4: editing `video.resolution` to `"bogus"`
succeeds on the demo store although `"bogus"` is neither `"copy"` nor a
member of any schema option list for the resolution parameter — the
edit-time check derives the key `"video_resolutions"`, but the registry
stores the list under `"resolutions"`, so the membership check is
skipped for this (and most other) parameters. -/
theorem edit_parameter_skips_schema_check_cex :
    (edit_profile_parameter demoStore "video" "p" "video" "resolution" "bogus").1 = true ∧
    ("bogus" : String) ≠ "copy" ∧
    ("bogus" : String) ∉ schemaList defaultSchema "resolutions" ∧
    ("bogus" : String) ∉ schemaList defaultSchema "video_resolutions" :=
  ⟨rfl, by decide, by decide, by decide⟩

/-- C4 amended: `edit_profile_parameter` succeeds iff the profile,
section and parameter all exist and — only when the schema has a list
under the derived key `section + "_" + param + "s"` — the new value is
`"copy"` or a member of that list.  Parameters whose derived key is
absent (resolution, crf, fps, preset, speeds, ...) accept any value. -/
theorem edit_parameter_success_iff (fp : FormatProfiles)
    (category name sec param v : String) :
    (edit_profile_parameter fp category name sec param v).1 = true ↔
      (∃ profs p s, assocGet fp.cats category = some profs ∧
        assocGet profs name = some p ∧ sectionOf p sec = some s ∧
        (Section.get s param).isSome = true ∧
        (∀ opts, assocGet fp.schema (sec ++ "_" ++ param ++ "s") = some opts →
          (v = "copy" ∨ v ∈ opts))) := by
  unfold edit_profile_parameter
  cases hc : assocGet fp.cats category with
  | none => simp [hc]
  | some profs =>
    simp only [hc]
    cases hp : assocGet profs name with
    | none => simp [hp]
    | some p =>
      simp only [hp]
      cases hs : sectionOf p sec with
      | none => simp [hp, hs]
      | some s =>
        simp only [hs]
        cases hg : Section.get s param with
        | none => simp [hp, hs, hg]
        | some val =>
          simp only [hg, Option.isNone_some, Bool.false_eq_true, if_false]
          cases hk : assocGet fp.schema (sec ++ "_" ++ param ++ "s") with
          | none => simp [hp, hs, hg, hk]
          | some opts =>
            simp only [hk]
            by_cases hv : (v == "copy" || opts.contains v) = true
            · rw [if_pos hv]
              simp only [Bool.or_eq_true, beq_iff_eq] at hv
              constructor
              · intro
                refine ⟨profs, p, s, rfl, hp, hs, by rw [hg]; rfl, ?_⟩
                intro o ho
                obtain rfl := Option.some.inj ho
                rcases hv with h | h
                · exact Or.inl h
                · exact Or.inr (List.elem_iff.mp h)
              · intro
                rfl
            · rw [if_neg hv]
              constructor
              · intro h
                exact absurd h (by simp)
              · rintro ⟨profs', p', s', -, -, -, -, hD⟩
                rcases hD opts rfl with h | h
                · exact (hv (by simp [h])).elim
                · exact (hv (by simp [h])).elim

/-- Witness for the amended C4: both directions at concrete inputs — an
unvalidated parameter accepts a junk value, a schema-keyed one
(`video.codec`) rejects a junk value. -/
theorem edit_parameter_success_iff_witness :
    ((edit_profile_parameter demoStore "video" "p" "video" "resolution" "bogus").1 = true ↔
      (∃ profs p s, assocGet demoStore.cats "video" = some profs ∧
        assocGet profs "p" = some p ∧ sectionOf p "video" = some s ∧
        (Section.get s "resolution").isSome = true ∧
        (∀ opts, assocGet demoStore.schema ("video" ++ "_" ++ "resolution" ++ "s") =
            some opts → ("bogus" = "copy" ∨ "bogus" ∈ opts)))) ∧
    ((edit_profile_parameter demoStore "video" "p" "video" "codec" "nonsense").1 = true ↔
      (∃ profs p s, assocGet demoStore.cats "video" = some profs ∧
        assocGet profs "p" = some p ∧ sectionOf p "video" = some s ∧
        (Section.get s "codec").isSome = true ∧
        (∀ opts, assocGet demoStore.schema ("video" ++ "_" ++ "codec" ++ "s") =
            some opts → ("nonsense" = "copy" ∨ "nonsense" ∈ opts)))) :=
  ⟨edit_parameter_success_iff demoStore "video" "p" "video" "resolution" "bogus",
   edit_parameter_success_iff demoStore "video" "p" "video" "codec" "nonsense"⟩

/-! ## The migration pass (C6) -/

/-- Counterexample to C6: a legacy video profile whose audio section has
no `audio_speed` key.  Migration fills in `video.speed_control = "1x"`
but does *not* force `audio.audio_speed` to match — the forcing step only
fires when the key is already present, so the key stays absent. -/
theorem migrate_does_not_force_missing_audio_speed_cex :
    migrateCats [("video", [("q", legacyProfile)])] =
      [("video", [("q", migrateVideoProfile legacyProfile)])] ∧
    Section.get ((migrateVideoProfile legacyProfile).video.getD []) "speed_control" =
      some "1x" ∧
    Section.get ((migrateVideoProfile legacyProfile).audio.getD []) "audio_speed" =
      none :=
  ⟨rfl, rfl, rfl⟩

theorem get_isSome_eq_getD (s : Section) (k d : String)
    (h : (Section.get s k).isSome = true) :
    Section.get s k = some (Section.getD s k d) := by
  cases hg : Section.get s k
  · rw [hg] at h
    simp at h
  · rw [Section.getD, hg]
    rfl

theorem migrateVideoProfile_idem (p : Profile) :
    migrateVideoProfile (migrateVideoProfile p) = migrateVideoProfile p := by
  cases hv : p.video with
  | none =>
    have h1 : migrateVideoProfile p = p := by
      unfold migrateVideoProfile
      rw [hv]
    rw [h1, h1]
  | some v =>
    cases ha : p.audio with
    | none =>
      by_cases hsc : (Section.get v "speed_control").isSome = true <;>
        simp [migrateVideoProfile, hv, ha, hsc, Section.get_set_self]
    | some a =>
      by_cases hsc : (Section.get v "speed_control").isSome = true <;>
        by_cases has : (Section.get a "audio_speed").isSome = true <;>
          simp [migrateVideoProfile, hv, ha, hsc, has, Section.get_set_self,
            Section.set_set_self, Section.getD]

theorem migrateAudioProfile_idem (p : Profile) :
    migrateAudioProfile (migrateAudioProfile p) = migrateAudioProfile p := by
  cases ha : p.audio with
  | none =>
    have h1 : migrateAudioProfile p = p := by
      unfold migrateAudioProfile
      rw [ha]
    rw [h1, h1]
  | some a =>
    by_cases has : (Section.get a "audio_speed").isSome = true <;>
      simp [migrateAudioProfile, ha, has, Section.get_set_self]

/-- C6 amended: after the migration pass, every video profile with a
video section that was missing `speed_control` has it set from
`audio.audio_speed` when present else `"1x"`; `audio.audio_speed` is
forced to equal the (new) `video.speed_control` exactly for those video
profiles whose audio section already carried an `audio_speed` key — a
profile whose audio section lacks the key keeps its audio section
unchanged; every audio profile with an audio section missing
`audio_speed` gets `"1x"`; and the pass is idempotent. -/
theorem migrate_pass_spec :
    (∀ (p : Profile) (v : Section), p.video = some v →
        Section.get v "speed_control" = none →
        Section.get ((migrateVideoProfile p).video.getD []) "speed_control" =
          some (Section.getD (p.audio.getD []) "audio_speed" "1x")) ∧
    (∀ (p : Profile) (v a : Section), p.video = some v → p.audio = some a →
        (Section.get a "audio_speed").isSome = true →
        ∃ spd, Section.get ((migrateVideoProfile p).video.getD []) "speed_control" =
            some spd ∧
          Section.get ((migrateVideoProfile p).audio.getD []) "audio_speed" = some spd) ∧
    (∀ (p : Profile) (a : Section), p.audio = some a →
        Section.get a "audio_speed" = none →
        (migrateVideoProfile p).audio = p.audio ∧
        (migrateAudioProfile p).audio = some (Section.set a "audio_speed" "1x")) ∧
    (∀ cats, migrateCats (migrateCats cats) = migrateCats cats) := by
  refine ⟨?_, ?_, ?_, ?_⟩
  · intro p v hv hsc
    unfold migrateVideoProfile
    rw [hv]
    have hns : (Section.get v "speed_control").isSome = false := by rw [hsc]; rfl
    cases ha : p.audio with
    | none => simp [hns, Section.get_set_self, ha]
    | some a =>
      by_cases has : (Section.get a "audio_speed").isSome = true <;>
        simp [hns, has, Section.get_set_self, ha]
  · intro p v a hv ha has
    unfold migrateVideoProfile
    rw [hv, ha]
    by_cases hsc : (Section.get v "speed_control").isSome = true
    · refine ⟨Section.getD v "speed_control" "1x", ?_, ?_⟩
      · simp [hsc, has, get_isSome_eq_getD v "speed_control" "1x" hsc]
      · simp [hsc, has, Section.get_set_self, Section.getD]
    · have hns : (Section.get v "speed_control").isSome = false := by
        cases hx : (Section.get v "speed_control").isSome
        · rfl
        · exact absurd hx hsc
      refine ⟨Section.getD a "audio_speed" "1x", ?_, ?_⟩
      · simp [hns, has, Section.get_set_self]
      · simp [hns, has, Section.get_set_self, Section.getD]
  · intro p a ha has
    constructor
    · unfold migrateVideoProfile
      cases hv : p.video with
      | none => rfl
      | some v =>
        rw [ha]
        have hna : (Section.get a "audio_speed").isSome = false := by rw [has]; rfl
        simp [hna]
    · unfold migrateAudioProfile
      rw [ha]
      have hna : (Section.get a "audio_speed").isSome = false := by rw [has]; rfl
      simp [hna]
  · intro cats
    unfold migrateCats
    rw [List.map_map]
    apply List.map_eq_map_iff.mpr
    intro cp _
    by_cases h1 : cp.1 = "video"
    · simp [Function.comp, h1, List.map_map, migrateVideoProfile_idem]
    · by_cases h2 : cp.1 = "audio"
      · simp [Function.comp, h1, h2, List.map_map, migrateAudioProfile_idem]
      · simp [Function.comp, h1, h2]

/-- Witness for the amended C6 at concrete profiles: a legacy profile
without `audio_speed` (defaulting and non-forcing), one with it
(forcing), and idempotence on the demo store's categories. -/
theorem migrate_pass_spec_witness :
    Section.get ((migrateVideoProfile legacyProfile).video.getD []) "speed_control" =
      some (Section.getD (legacyProfile.audio.getD []) "audio_speed" "1x") ∧
    (∃ spd, Section.get ((migrateVideoProfile
          { container := some "mp4", video := some [("codec", "libx264")],
            audio := some [("codec", "aac"), ("audio_speed", "2x")] }).video.getD [])
          "speed_control" = some spd ∧
        Section.get ((migrateVideoProfile
          { container := some "mp4", video := some [("codec", "libx264")],
            audio := some [("codec", "aac"), ("audio_speed", "2x")] }).audio.getD [])
          "audio_speed" = some spd) ∧
    ((migrateVideoProfile legacyProfile).audio = legacyProfile.audio ∧
      (migrateAudioProfile legacyProfile).audio =
        some (Section.set [("codec", "aac")] "audio_speed" "1x")) ∧
    migrateCats (migrateCats demoStore.cats) = migrateCats demoStore.cats :=
  ⟨migrate_pass_spec.1 legacyProfile [("codec", "libx264")] rfl rfl,
   migrate_pass_spec.2.1
     { container := some "mp4", video := some [("codec", "libx264")],
       audio := some [("codec", "aac"), ("audio_speed", "2x")] }
     [("codec", "libx264")] [("codec", "aac"), ("audio_speed", "2x")] rfl rfl rfl,
   migrate_pass_spec.2.2.1 legacyProfile [("codec", "aac")] rfl rfl,
   migrate_pass_spec.2.2.2 demoStore.cats⟩

end CliConv
